import Mathlib

/-!
Verification of the keystore program (multi-key identity / threshold
authorization core) against its natural-language specification.

The Rust sources embedded here:
  programs/keystore/src/secp256r1.rs        (signature oracle)
  programs/keystore/src/instructions/execute.rs
  programs/keystore/src/instructions/create.rs
  programs/keystore/src/instructions/add_key.rs
  programs/keystore/src/lib.rs              (KAction and signature data types)
  programs/keystore/src/error.rs            (error taxonomy)

Bytes are modelled as `List Nat` with each entry a value below 256 where the
source guarantees it (u8 slices).  Machine integers (u16, u64) are modelled as
`Nat`; little-endian encodings are explicit (`leBytes`).  Fallible code returns
`Except KeystoreError` mirroring the Rust `Result`.
-/

/-- Byte strings of the program, each entry standing for one u8. -/
abbrev Bytes := List Nat

/-- Error codes from error.rs.  The instruction handlers additionally reference
`InsufficientFunds`, `InvalidAccountData`, `InvalidWebAuthnData` and
`InvalidArgument`, which are used in the instruction sources although the
`error.rs` copy in the tree does not list them; they are included here so the
handlers can be embedded as written. -/
inductive KeystoreError where
  | thresholdNotMet
  | invalidKeyIndex
  | maxKeysReached
  | invalidThreshold
  | signatureVerificationFailed
  | invalidSecp256r1Instruction
  | duplicateKey
  | invalidPublicKey
  | invalidDeviceName
  | invalidPublicKeyFormat
  | credentialAlreadyRegistered
  | maxCredentialsReached
  | insufficientFunds
  | invalidAccountData
  | invalidWebAuthnData
  | invalidArgument
  deriving DecidableEq, Repr

/-- Little-endian byte encoding of `n` on `k` bytes (`to_le_bytes`, with the
Rust `as u16` / fixed-width truncation behaviour built in: only the low
`8 * k` bits are kept). -/
def leBytes : Nat → Nat → Bytes
  | 0, _ => []
  | k + 1, n => n % 256 :: leBytes k (n / 256)

/-- Recompose a little-endian byte string into the number it encodes. -/
def leDecode : Bytes → Nat
  | [] => 0
  | b :: bs => b + 256 * leDecode bs

/-- Read a little-endian u16 at byte offset `i` (out-of-range bytes read 0;
the parser below only calls this after its length check). -/
def readU16LE (data : Bytes) (i : Nat) : Nat :=
  data.getD i 0 + 256 * data.getD (i + 1) 0

/-- An instruction of the atomic batch: a program id (opaque identifier,
only compared for equality) and a data payload. -/
structure Instruction where
  programId : Nat
  data : Bytes
  deriving DecidableEq

/-- Marker for the secp256r1 verifier program
(`Secp256r1SigVerify1111111111111111111111111`); opaque, only equality
matters. -/
def SECP256R1_PROGRAM_ID : Nat := 0x5ec9

/-- Parsed secp256r1 verifier-instruction header, secp256r1.rs. -/
structure Secp256r1InstructionData where
  num_signatures : Nat
  signature_offset : Nat
  signature_ix_index : Nat
  pubkey_offset : Nat
  pubkey_ix_index : Nat
  message_offset : Nat
  message_size : Nat
  message_ix_index : Nat
  deriving DecidableEq

/-- `Secp256r1InstructionData::try_from_slice`: 2-byte header
(`num_signatures` must be 1) followed by seven little-endian u16 fields;
payloads shorter than 16 bytes are rejected. -/
def Secp256r1InstructionData.try_from_slice (data : Bytes) :
    Option Secp256r1InstructionData :=
  if data.length < 16 then none
  else if data.getD 0 0 ≠ 1 then none
  else some {
    num_signatures := data.getD 0 0
    signature_offset := readU16LE data 2
    signature_ix_index := readU16LE data 4
    pubkey_offset := readU16LE data 6
    pubkey_ix_index := readU16LE data 8
    message_offset := readU16LE data 10
    message_size := readU16LE data 12
    message_ix_index := readU16LE data 14 }

/-- `extract_signature`: the signature (64 bytes) must live in the same
instruction (`signature_ix_index = 0xFFFF`); cross-instruction references
and out-of-bounds offsets are errors (collapsed to `none`). -/
def Secp256r1InstructionData.extract_signature
    (parsed : Secp256r1InstructionData) (data : Bytes) : Option Bytes :=
  if parsed.signature_ix_index = 0xFFFF then
    if parsed.signature_offset + 64 ≤ data.length then
      some ((data.drop parsed.signature_offset).take 64)
    else none
  else none

/-- `extract_pubkey`: 33-byte compressed key at `pubkey_offset`, same
instruction only. -/
def Secp256r1InstructionData.extract_pubkey
    (parsed : Secp256r1InstructionData) (data : Bytes) : Option Bytes :=
  if parsed.pubkey_ix_index = 0xFFFF then
    if parsed.pubkey_offset + 33 ≤ data.length then
      some ((data.drop parsed.pubkey_offset).take 33)
    else none
  else none

/-- `extract_message`: `message_size` bytes at `message_offset`, same
instruction only. -/
def Secp256r1InstructionData.extract_message
    (parsed : Secp256r1InstructionData) (data : Bytes) : Option Bytes :=
  if parsed.message_ix_index = 0xFFFF then
    if parsed.message_offset + parsed.message_size ≤ data.length then
      some ((data.drop parsed.message_offset).take parsed.message_size)
    else none
  else none

/-- One candidate test of the oracle scan body in
`verify_secp256r1_signature`: the instruction is addressed to the verifier
program, is long enough, parses, all three fields extract, and the extracted
pubkey, signature and message are byte-equal to the expected values. -/
def matchesCandidate (ix : Instruction)
    (expectedPubkey expectedMessage expectedSignature : Bytes) : Bool :=
  if ix.programId ≠ SECP256R1_PROGRAM_ID then false
  else if ix.data.length < 16 then false
  else
    match Secp256r1InstructionData.try_from_slice ix.data with
    | none => false
    | some parsed =>
      match parsed.extract_signature ix.data, parsed.extract_pubkey ix.data,
            parsed.extract_message ix.data with
      | some sig, some pk, some msg =>
        decide (pk.length = 33) && decide (pk = expectedPubkey) &&
        decide (sig.length = 64) && decide (sig = expectedSignature) &&
        decide (msg = expectedMessage)
      | _, _, _ => false

/-- The backward scan loop of `verify_secp256r1_signature`: indices
`cur - 1, …, 0` are examined in that order; loading a missing instruction
aborts with `InvalidSecp256r1Instruction`; the first matching candidate ends
the scan with its index; exhaustion yields `none`. -/
def scanLoop (batch : List Instruction)
    (expectedPubkey expectedMessage expectedSignature : Bytes) :
    Nat → Except KeystoreError (Option Nat)
  | 0 => .ok none
  | i + 1 =>
    match batch.get? i with
    | none => .error .invalidSecp256r1Instruction
    | some ix =>
      if matchesCandidate ix expectedPubkey expectedMessage expectedSignature then
        .ok (some i)
      else
        scanLoop batch expectedPubkey expectedMessage expectedSignature i

/-- `verify_secp256r1_signature`: succeed exactly when the backward scan over
the instructions before `currentIdx` finds a byte-equal candidate; an
exhausted scan is `SignatureVerificationFailed`. -/
def verify_secp256r1_signature (batch : List Instruction) (currentIdx : Nat)
    (expectedPubkey expectedMessage expectedSignature : Bytes) :
    Except KeystoreError Unit :=
  match scanLoop batch expectedPubkey expectedMessage expectedSignature currentIdx with
  | .error e => .error e
  | .ok (some _) => .ok ()
  | .ok none => .error .signatureVerificationFailed

/-- `build_secp256r1_instruction`: the client-side helper.  As in the source
it emits the legacy single-byte instruction-index layout: a `1` count byte,
then u16 signature offset, u8 index byte `0xFF`, u16 pubkey offset, u8 index
byte `0xFF`, u16 message offset, u16 message size, u8 index byte `0xFF`,
followed by signature, pubkey and message bytes. -/
def build_secp256r1_instruction (pubkey message signature : Bytes) :
    Instruction :=
  { programId := SECP256R1_PROGRAM_ID
    data := [1] ++ leBytes 2 13 ++ [0xFF] ++ leBytes 2 77 ++ [0xFF] ++
      leBytes 2 110 ++ leBytes 2 message.length ++ [0xFF] ++
      signature ++ pubkey ++ message }

/-- `KAction` from lib.rs: `Send { to, lamports }` or
`SetThreshold { threshold }`. -/
inductive KAction where
  | send (toAddr : Bytes) (lamports : Nat)
  | setThreshold (threshold : Nat)
  deriving DecidableEq

/-- Borsh serialization of `KAction` (`try_to_vec`): a variant tag byte
followed by the fields in order; `to` is a 32-byte pubkey, `lamports` a
little-endian u64, `threshold` a single u8 byte. -/
def encodeAction : KAction → Bytes
  | .send toAddr lamports => 0 :: (toAddr ++ leBytes 8 lamports)
  | .setThreshold t => [1, t % 256]

/-- `build_message` in execute.rs: borsh bytes of the action followed by the
nonce as 8 little-endian bytes. -/
def execute.build_message (action : KAction) (nonce : Nat) : Bytes :=
  encodeAction action ++ leBytes 8 nonce

/-- Modelled from the spec: `RegisteredKey` from the missing `state.rs`
(33-byte compressed pubkey, display name bytes, creation timestamp). -/
structure RegisteredKey where
  pubkey : Bytes
  name : Bytes
  added_at : Int
  deriving DecidableEq

/-- Modelled from the spec: `Identity` from the missing `state.rs` —
registered keys (insertion order significant), threshold, monotonically
increasing nonce, derivation bumps. -/
structure Identity where
  bump : Nat
  vault_bump : Nat
  threshold : Nat
  nonce : Nat
  keys : List RegisteredKey
  deriving DecidableEq

/-- Modelled from the spec: `Identity::MAX_KEYS = 5` (the key cap named by
the spec and by the `MaxKeysReached` error message). -/
def Identity.MAX_KEYS : Nat := 5

/-- `SignatureData` from lib.rs. -/
structure SignatureData where
  key_index : Nat
  signature : Bytes
  recovery_id : Nat
  deriving DecidableEq

/-- `WebAuthnSignatureData` from lib.rs. -/
structure WebAuthnSignatureData where
  key_index : Nat
  signature : Bytes
  authenticator_data : Bytes
  client_data_json : Bytes
  deriving DecidableEq

/-- The duplicate-`key_index` check of the raw handler: a `HashSet` insert
loop that fails on the first repeated index.  Returns `true` when all
indices are fresh with respect to `seen` and each other. -/
def noDuplicateKeyIndices (seen : List Nat) : List Nat → Bool
  | [] => true
  | k :: rest =>
    if seen.contains k then false else noDuplicateKeyIndices (k :: seen) rest

/-- The per-signature loop of the raw handler: resolve each `key_index`
(`InvalidKeyIndex` when out of range) and ask the oracle for that key,
message and signature; the first failure aborts. -/
def verifyAllSigs (batch : List Instruction) (currentIdx : Nat)
    (keys : List RegisteredKey) (message : Bytes) :
    List SignatureData → Except KeystoreError Unit
  | [] => .ok ()
  | sd :: rest =>
    match keys.get? sd.key_index with
    | none => .error .invalidKeyIndex
    | some key =>
      match verify_secp256r1_signature batch currentIdx key.pubkey message
          sd.signature with
      | .error e => .error e
      | .ok _ => verifyAllSigs batch currentIdx keys message rest

/-- The action application of both execute handlers.  `minBalance` stands
for `Rent::get()?.minimum_balance(0)`; `recipient` is the optional recipient
account's pubkey, `vault` the vault balance in lamports.  `Send` requires a
matching recipient, sufficient balance, and a remainder that is zero or at
least the rent floor; `SetThreshold` requires `1 ≤ t ≤ keys.len()`. -/
def applyAction (minBalance : Nat) (recipient : Option Bytes)
    (ident : Identity) (vault : Nat) : KAction →
    Except KeystoreError (Identity × Nat)
  | .send toAddr lamports =>
    match recipient with
    | none => .error .invalidAccountData
    | some rkey =>
      if rkey ≠ toAddr then .error .invalidAccountData
      else if vault < lamports then .error .insufficientFunds
      else if minBalance ≤ vault - lamports ∨ lamports = vault then
        .ok (ident, vault - lamports)
      else .error .insufficientFunds
  | .setThreshold t =>
    if t = 0 then .error .invalidThreshold
    else if ident.keys.length < t then .error .invalidThreshold
    else .ok ({ ident with threshold := t }, vault)

/-- The raw execute handler (`instructions::execute::handler`): quorum and
duplicate checks, message build, oracle verification of every bundle entry,
then nonce increment followed by the action. -/
def execute.handler (minBalance : Nat) (batch : List Instruction)
    (currentIdx : Nat) (recipient : Option Bytes) (ident : Identity)
    (vault : Nat) (action : KAction) (sigs : List SignatureData) :
    Except KeystoreError (Identity × Nat) :=
  if sigs.isEmpty then .error .thresholdNotMet
  else if sigs.length < ident.threshold then .error .thresholdNotMet
  else if noDuplicateKeyIndices [] (sigs.map (fun sd => sd.key_index)) then
    match verifyAllSigs batch currentIdx ident.keys
        (execute.build_message action ident.nonce) sigs with
    | .error e => .error e
    | .ok _ =>
      applyAction minBalance recipient { ident with nonce := ident.nonce + 1 }
        vault action
  else .error .signatureVerificationFailed

/-- Strict UTF-8 validity as checked by `std::str::from_utf8` (RFC 3629:
no overlong encodings, no surrogates, no code points above U+10FFFF). -/
def validUtf8 : Bytes → Bool
  | [] => true
  | b :: rest =>
    if b < 0x80 then validUtf8 rest
    else if b < 0xC2 then false
    else if b < 0xE0 then
      match rest with
      | c1 :: r2 => decide (0x80 ≤ c1) && decide (c1 < 0xC0) && validUtf8 r2
      | [] => false
    else if b < 0xF0 then
      match rest with
      | c1 :: c2 :: r2 =>
        (if b = 0xE0 then decide (0xA0 ≤ c1) && decide (c1 < 0xC0)
         else if b = 0xED then decide (0x80 ≤ c1) && decide (c1 < 0xA0)
         else decide (0x80 ≤ c1) && decide (c1 < 0xC0)) &&
        (decide (0x80 ≤ c2) && decide (c2 < 0xC0)) && validUtf8 r2
      | _ => false
    else if b < 0xF5 then
      match rest with
      | c1 :: c2 :: c3 :: r2 =>
        (if b = 0xF0 then decide (0x90 ≤ c1) && decide (c1 < 0xC0)
         else if b = 0xF4 then decide (0x80 ≤ c1) && decide (c1 < 0x90)
         else decide (0x80 ≤ c1) && decide (c1 < 0xC0)) &&
        (decide (0x80 ≤ c2) && decide (c2 < 0xC0)) &&
        (decide (0x80 ≤ c3) && decide (c3 < 0xC0)) && validUtf8 r2
      | _ => false
    else false

/-- First index at which `pat` occurs as a contiguous sub-sequence
(`str::find` of a literal pattern, byte offsets). -/
def findSublistIdx (pat : Bytes) : Bytes → Option Nat
  | [] => if pat.isEmpty then some 0 else none
  | b :: rest =>
    if pat.isPrefixOf (b :: rest) then some 0
    else
      match findSublistIdx pat rest with
      | none => none
      | some j => some (j + 1)

/-- The challenge-field marker the handler scans for: the bytes of the
literal text consisting of a double quote, the word challenge, a double
quote, a colon and a double quote. -/
def challengeMarker : Bytes :=
  [34, 99, 104, 97, 108, 108, 101, 110, 103, 101, 34, 58, 34]

/-- The narrow single-field extraction of `verify_webauthn_challenge`:
everything after the first occurrence of the marker up to (excluding) the
next double-quote byte. -/
def extractChallengeB64 (clientDataJson : Bytes) : Option Bytes :=
  match findSublistIdx challengeMarker clientDataJson with
  | none => none
  | some i =>
    let tail := clientDataJson.drop (i + challengeMarker.length)
    match tail.findIdx? (fun b => b == 34) with
    | none => none
    | some e => some (tail.take e)

/-- Value of one base64url character (u8), per the decoder's alphabet. -/
def base64CharValue (c : Nat) : Option Nat :=
  if 65 ≤ c ∧ c ≤ 90 then some (c - 65)
  else if 97 ≤ c ∧ c ≤ 122 then some (c - 97 + 26)
  else if 48 ≤ c ∧ c ≤ 57 then some (c - 48 + 52)
  else if c = 45 then some 62
  else if c = 95 then some 63
  else none

/-- The bit-accumulator loop of `base64url_decode`: shift six bits in per
character, emit a byte whenever eight or more bits are collected, skip `=`
padding, fail on any character outside the alphabet. -/
def execute.base64url_decode_loop : Bytes → Nat → Nat → Option Bytes
  | [], _, _ => some []
  | c :: rest, buffer, bits =>
    if c = 61 then execute.base64url_decode_loop rest buffer bits
    else
      match base64CharValue c with
      | none => none
      | some v =>
        let buffer2 := buffer * 64 + v
        let bits2 := bits + 6
        if 8 ≤ bits2 then
          let bitsLeft := bits2 - 8
          let byte := (buffer2 / 2 ^ bitsLeft) % 256
          match execute.base64url_decode_loop rest (buffer2 % 2 ^ bitsLeft)
              bitsLeft with
          | none => none
          | some out => some (byte :: out)
        else execute.base64url_decode_loop rest buffer2 bits2

/-- `base64url_decode` in execute.rs (unpadded base64url; `=` tolerated). -/
def execute.base64url_decode (input : Bytes) : Option Bytes :=
  execute.base64url_decode_loop input 0 0

/-- `verify_webauthn_challenge`: UTF-8 check, marker scan, base64url decode,
byte comparison against the expected hash; every failure is
`InvalidWebAuthnData`. -/
def execute.verify_webauthn_challenge (clientDataJson : Bytes)
    (expectedHash : Bytes) : Except KeystoreError Unit :=
  if validUtf8 clientDataJson then
    match extractChallengeB64 clientDataJson with
    | none => .error .invalidWebAuthnData
    | some challengeB64 =>
      match execute.base64url_decode challengeB64 with
      | none => .error .invalidWebAuthnData
      | some challenge =>
        if challenge = expectedHash then .ok ()
        else .error .invalidWebAuthnData
  else .error .invalidWebAuthnData

/-- The WebAuthn execute handler (`handler_webauthn`): challenge check
against `hashFn (build_message action nonce)`, key resolution, oracle
verification of the assertion over
`authenticator_data ++ hashFn client_data_json`, then nonce increment and
the action.  `hashFn` stands for the external SHA-256 primitive
(`solana_program::hash::hash`). -/
def execute.handler_webauthn (hashFn : Bytes → Bytes) (minBalance : Nat)
    (batch : List Instruction) (currentIdx : Nat) (recipient : Option Bytes)
    (ident : Identity) (vault : Nat) (action : KAction)
    (wsig : WebAuthnSignatureData) : Except KeystoreError (Identity × Nat) :=
  match execute.verify_webauthn_challenge wsig.client_data_json
      (hashFn (execute.build_message action ident.nonce)) with
  | .error e => .error e
  | .ok _ =>
    match ident.keys.get? wsig.key_index with
    | none => .error .invalidKeyIndex
    | some key =>
      match verify_secp256r1_signature batch currentIdx key.pubkey
          (wsig.authenticator_data ++ hashFn wsig.client_data_json)
          wsig.signature with
      | .error e => .error e
      | .ok _ =>
        applyAction minBalance recipient
          { ident with nonce := ident.nonce + 1 } vault action

/-- Modelled from the spec: the host commits account mutations only when the
call returns success; a failed call leaves the pre-call state observable
(the atomic-unit rule of the concurrency model and the fail-closed
propagation policy). -/
def committedState (pre : Identity × Nat)
    (result : Except KeystoreError (Identity × Nat)) : Identity × Nat :=
  match result with
  | .ok st => st
  | .error _ => pre

/-- `instructions::create::handler`: name 1–32 bytes, pubkey prefix 0x02 or
0x03; the new identity has one key, threshold 1, nonce 0. -/
def create.handler (ts : Int) (bump vaultBump : Nat) (pubkey : Bytes)
    (deviceName : Bytes) : Except KeystoreError Identity :=
  if deviceName.length ≤ 32 ∧ deviceName ≠ [] then
    if pubkey.getD 0 0 = 2 ∨ pubkey.getD 0 0 = 3 then
      .ok { bump := bump, vault_bump := vaultBump, threshold := 1, nonce := 0,
            keys := [{ pubkey := pubkey, name := deviceName, added_at := ts }] }
    else .error .invalidPublicKeyFormat
  else .error .invalidDeviceName

/-- `instructions::add_key::handler`: name 1–32 bytes, valid pubkey prefix,
below the 5-key cap, no duplicate pubkey; appends the key. -/
def add_key.handler (ts : Int) (ident : Identity) (newPubkey : Bytes)
    (deviceName : Bytes) : Except KeystoreError Identity :=
  if 32 < deviceName.length then .error .invalidArgument
  else if deviceName = [] then .error .invalidArgument
  else if ¬ (newPubkey.getD 0 0 = 2 ∨ newPubkey.getD 0 0 = 3) then
    .error .invalidPublicKey
  else if ¬ (ident.keys.length < Identity.MAX_KEYS) then .error .maxKeysReached
  else if ident.keys.any (fun k => decide (k.pubkey = newPubkey)) then
    .error .duplicateKey
  else
    .ok { ident with
          keys := ident.keys ++
            [{ pubkey := newPubkey, name := deviceName, added_at := ts }] }

/-- The Identity invariant of the spec:
`1 ≤ threshold ≤ keys.len() ≤ 5`. -/
def IdentityInvariant (ident : Identity) : Prop :=
  1 ≤ ident.threshold ∧ ident.threshold ≤ ident.keys.length ∧
    ident.keys.length ≤ 5

/-! Concrete fixtures used by the witnesses and counterexamples below. -/

/-- A well-formed compressed pubkey: prefix 0x02 then 32 zero bytes. -/
def pk0 : Bytes := 2 :: List.replicate 32 0

/-- A second well-formed compressed pubkey: prefix 0x03. -/
def pk1 : Bytes := 3 :: List.replicate 32 0

/-- A 64-byte signature of zeros. -/
def sig0 : Bytes := List.replicate 64 0

/-- A constant stand-in for the external SHA-256 primitive, used to
instantiate the `hashFn` parameter at concrete inputs. -/
def hashC : Bytes → Bytes := fun _ => List.replicate 32 0

/-- The 32-byte message used by the concrete WebAuthn scenario. -/
def msg32 : Bytes := List.replicate 32 0

/-- A well-formed 16-byte-layout verifier instruction embedding
`(pk0, msg32, sig0)`: signature at offset 16, pubkey at 80, message at 113,
all instruction-index fields 0xFFFF. -/
def vix1 : Instruction :=
  { programId := SECP256R1_PROGRAM_ID
    data := [1, 0, 16, 0, 255, 255, 80, 0, 255, 255, 113, 0, 32, 0, 255, 255] ++
      sig0 ++ pk0 ++ msg32 }

/-- A batch holding just the verifier instruction `vix1`. -/
def batch1 : List Instruction := [vix1]

/-- A two-key identity with threshold 2 and nonce 0. -/
def ident2 : Identity :=
  { bump := 0, vault_bump := 0, threshold := 2, nonce := 0
    keys := [{ pubkey := pk0, name := [107, 48], added_at := 0 },
             { pubkey := pk1, name := [107, 49], added_at := 0 }] }

/-- A one-key identity with threshold 1 and nonce 0. -/
def ident1 : Identity :=
  { bump := 0, vault_bump := 0, threshold := 1, nonce := 0
    keys := [{ pubkey := pk0, name := [107, 48], added_at := 0 }] }

/-- Client-data JSON bytes carrying, in its only field, the 43-character
base64url encoding of 32 zero bytes (43 capital A characters). -/
def cdChal : Bytes := [123] ++ challengeMarker ++ List.replicate 43 65 ++ [34, 125]

/-- A WebAuthn assertion for key 0 over `cdChal`. -/
def w1 : WebAuthnSignatureData :=
  { key_index := 0, signature := sig0, authenticator_data := []
    client_data_json := cdChal }

/-- Client-data bytes with no challenge field at all (a single brace). -/
def cdBad : Bytes := [123]

/-- A WebAuthn assertion whose client data has no challenge field. -/
def wBad : WebAuthnSignatureData :=
  { key_index := 0, signature := sig0, authenticator_data := []
    client_data_json := cdBad }

/-- The canonical message of `SetThreshold 1` at nonce 0. -/
def msgT1 : Bytes := execute.build_message (.setThreshold 1) 0

/-- A well-formed verifier instruction embedding `(pk0, msgT1, sig0)`. -/
def vix2 : Instruction :=
  { programId := SECP256R1_PROGRAM_ID
    data := [1, 0, 16, 0, 255, 255, 80, 0, 255, 255, 113, 0, 10, 0, 255, 255] ++
      sig0 ++ pk0 ++ msgT1 }

/-- A batch holding just the verifier instruction `vix2`. -/
def batch2 : List Instruction := [vix2]

/-- A one-entry raw signature bundle for key 0. -/
def sigs1 : List SignatureData :=
  [{ key_index := 0, signature := sig0, recovery_id := 0 }]

/-- A raw signature bundle in which two entries share `key_index` 0. -/
def sigsDup : List SignatureData :=
  [{ key_index := 0, signature := sig0, recovery_id := 0 },
   { key_index := 0, signature := sig0, recovery_id := 0 }]

/-- Client-data bytes in which the byte sequence of a quoted challenge field
occurs embedded inside the value of an earlier field, before the top-level
challenge field: textually, an object whose field a has value containing
the marker followed by QQ, and whose real challenge field holds Ug. -/
def cd1 : Bytes :=
  [123, 34, 97, 34, 58, 34] ++ challengeMarker ++ [81, 81, 34, 34, 44] ++
    challengeMarker ++ [85, 103, 34, 125]

/-- The verifier instruction produced by the client-side builder at the
concrete triple `(pk0, [], sig0)`. -/
def built0 : Instruction := build_secp256r1_instruction pk0 [] sig0


/-! Helper lemmas. -/

/-- Decoding recovers the value encoded on `k` little-endian bytes when the
value fits. -/
theorem leDecode_leBytes : ∀ (k n : Nat), n < 256 ^ k →
    leDecode (leBytes k n) = n
  | 0, n, h => by
    simp only [pow_zero, Nat.lt_one_iff] at h
    simp [leBytes, leDecode, h]
  | k + 1, n, h => by
    have hd : n / 256 < 256 ^ k := by
      rw [Nat.div_lt_iff_lt_mul (by norm_num)]
      calc n < 256 ^ (k + 1) := h
        _ = 256 ^ k * 256 := pow_succ 256 k
    simp only [leBytes, leDecode, leDecode_leBytes k (n / 256) hd]
    exact Nat.mod_add_div n 256

/-- `leBytes 8` is injective below `2 ^ 64`. -/
theorem leBytes8_inj {n m : Nat} (hn : n < 2 ^ 64) (hm : m < 2 ^ 64)
    (h : leBytes 8 n = leBytes 8 m) : n = m := by
  have e : (2 : Nat) ^ 64 = 256 ^ 8 := by norm_num
  calc n = leDecode (leBytes 8 n) := (leDecode_leBytes 8 n (e ▸ hn)).symm
    _ = leDecode (leBytes 8 m) := by rw [h]
    _ = m := leDecode_leBytes 8 m (e ▸ hm)

/-- Two canonical messages of the same action at distinct nonces differ. -/
theorem build_message_nonce_inj (a : KAction) {n m : Nat} (hn : n < 2 ^ 64)
    (hm : m < 2 ^ 64) (hnm : n ≠ m) :
    execute.build_message a n ≠ execute.build_message a m := by
  intro h
  exact hnm (leBytes8_inj hn hm (List.append_cancel_left h))

/-- A successful scan result points below the starting index, at a matching
candidate, and every index above it (still below the start) fails to match. -/
theorem scanLoop_ok_some_spec (batch : List Instruction) (pk msg sg : Bytes) :
    ∀ cur i, scanLoop batch pk msg sg cur = .ok (some i) →
      i < cur ∧ (∃ ix, batch.get? i = some ix ∧ matchesCandidate ix pk msg sg = true) ∧
      ∀ j, i < j → j < cur → ∀ ix, batch.get? j = some ix →
        matchesCandidate ix pk msg sg = false := by
  intro cur
  induction cur with
  | zero => intro i h; simp [scanLoop] at h
  | succ c ih =>
    intro i h
    unfold scanLoop at h
    split at h
    · exact absurd h (by simp)
    next ix hg =>
      split at h
      next hm =>
        have hi : i = c := by
          simp only [Except.ok.injEq, Option.some.injEq] at h
          omega
        subst hi
        refine ⟨Nat.lt_succ_self i, ⟨ix, hg, hm⟩, ?_⟩
        intro j hij hjc
        omega
      next hm =>
        obtain ⟨hic, hex, hall⟩ := ih i h
        refine ⟨Nat.lt_succ_of_lt hic, hex, ?_⟩
        intro j hij hjc ix2 hg2
        rcases Nat.lt_succ_iff_lt_or_eq.mp hjc with hj | hj
        · exact hall j hij hj ix2 hg2
        · subst hj
          rw [hg] at hg2
          cases hg2
          exact eq_false_of_ne_true hm

/-- An exhausted scan means no instruction below the starting index
matches. -/
theorem scanLoop_ok_none_spec (batch : List Instruction) (pk msg sg : Bytes) :
    ∀ cur, scanLoop batch pk msg sg cur = .ok none →
      ∀ j, j < cur → ∀ ix, batch.get? j = some ix →
        matchesCandidate ix pk msg sg = false := by
  intro cur
  induction cur with
  | zero => intro _ j hj; omega
  | succ c ih =>
    intro h j hj ix hg
    unfold scanLoop at h
    split at h
    · exact absurd h (by simp)
    next ixc hgc =>
      split at h
      next hm => exact absurd h (by simp)
      next hm =>
        rcases Nat.lt_succ_iff_lt_or_eq.mp hj with hj2 | hj2
        · exact ih h j hj2 ix hg
        · subst hj2
          rw [hgc] at hg
          cases hg
          exact eq_false_of_ne_true hm

/-- Within the batch bounds the scan loop never aborts. -/
theorem scanLoop_no_error (batch : List Instruction) (pk msg sg : Bytes) :
    ∀ cur, cur ≤ batch.length → ∃ o, scanLoop batch pk msg sg cur = .ok o := by
  intro cur
  induction cur with
  | zero => intro _; exact ⟨none, rfl⟩
  | succ c ih =>
    intro hc
    have hcl : c < batch.length := hc
    cases hg : batch.get? c with
    | none => rw [List.get?_eq_get hcl] at hg; exact absurd hg (by simp)
    | some ix =>
      have hstep : scanLoop batch pk msg sg (c + 1) =
          if matchesCandidate ix pk msg sg = true then .ok (some c)
          else scanLoop batch pk msg sg c := by
        conv_lhs => unfold scanLoop
        rw [hg]
      by_cases hm : matchesCandidate ix pk msg sg = true
      · exact ⟨some c, by rw [hstep, if_pos hm]⟩
      · obtain ⟨o, ho⟩ := ih (Nat.le_of_succ_le hc)
        exact ⟨o, by rw [hstep, if_neg hm]; exact ho⟩

/-- The duplicate-index loop accepts only lists whose entries are pairwise
distinct and disjoint from the already-seen set. -/
theorem noDuplicateKeyIndices_true (l : List Nat) :
    ∀ seen, noDuplicateKeyIndices seen l = true →
      l.Nodup ∧ ∀ k ∈ l, k ∉ seen := by
  induction l with
  | nil => intro seen _; simp
  | cons k rest ih =>
    intro seen h
    unfold noDuplicateKeyIndices at h
    split at h
    · exact absurd h (by simp)
    next hc =>
      obtain ⟨hnd, hdisj⟩ := ih (k :: seen) h
      have hkr : k ∉ rest := fun hk => (hdisj k hk) (List.mem_cons_self k seen)
      refine ⟨List.nodup_cons.mpr ⟨hkr, hnd⟩, ?_⟩
      intro x hx
      rcases List.mem_cons.mp hx with hx | hx
      · subst hx
        intro hxs
        exact hc (List.elem_eq_true_of_mem hxs)
      · intro hxs
        exact (hdisj x hx) (List.mem_cons_of_mem k hxs)

/-- `applyAction` never changes the nonce or the key list. -/
theorem applyAction_preserves (mb : Nat) (r : Option Bytes) (ident : Identity)
    (vault : Nat) (a : KAction) (p : Identity × Nat)
    (h : applyAction mb r ident vault a = .ok p) :
    p.1.nonce = ident.nonce ∧ p.1.keys = ident.keys := by
  unfold applyAction at h
  split at h
  · split at h
    · exact absurd h (by simp)
    · split at h
      · exact absurd h (by simp)
      · split at h
        · exact absurd h (by simp)
        · split at h
          · cases h; exact ⟨rfl, rfl⟩
          · exact absurd h (by simp)
  · split at h
    · exact absurd h (by simp)
    · split at h
      · exact absurd h (by simp)
      · cases h; exact ⟨rfl, rfl⟩

/-- `applyAction` preserves the Identity invariant: `Send` leaves keys and
threshold alone, `SetThreshold` re-establishes it from its own checks. -/
theorem applyAction_invariant (mb : Nat) (r : Option Bytes) (ident : Identity)
    (vault : Nat) (a : KAction) (p : Identity × Nat)
    (hInv : IdentityInvariant ident)
    (h : applyAction mb r ident vault a = .ok p) :
    IdentityInvariant p.1 := by
  unfold applyAction at h
  split at h
  · split at h
    · exact absurd h (by simp)
    · split at h
      · exact absurd h (by simp)
      · split at h
        · exact absurd h (by simp)
        · split at h
          · cases h; exact hInv
          · exact absurd h (by simp)
  · next t =>
    split at h
    · exact absurd h (by simp)
    next h1 =>
      split at h
      · exact absurd h (by simp)
      next h2 =>
        cases h
        obtain ⟨hthr1, hthr2, hlen⟩ := hInv
        simp only [IdentityInvariant]
        refine ⟨by omega, by omega, by omega⟩

/-- A successful raw execute call is exactly an `applyAction` on the
nonce-incremented identity (all guards passed). -/
theorem handler_ok_applyAction {mb : Nat} {batch : List Instruction}
    {cur : Nat} {r : Option Bytes} {ident : Identity} {vault : Nat}
    {action : KAction} {sigs : List SignatureData} {p : Identity × Nat}
    (h : execute.handler mb batch cur r ident vault action sigs = .ok p) :
    applyAction mb r { ident with nonce := ident.nonce + 1 } vault action =
      .ok p := by
  unfold execute.handler at h
  split at h
  · exact absurd h (by simp)
  · split at h
    · exact absurd h (by simp)
    · split at h
      · split at h
        · exact absurd h (by simp)
        · exact h
      · exact absurd h (by simp)

/-- A successful WebAuthn execute call is exactly an `applyAction` on the
nonce-incremented identity. -/
theorem handler_webauthn_ok_applyAction {hashFn : Bytes → Bytes} {mb : Nat}
    {batch : List Instruction} {cur : Nat} {r : Option Bytes}
    {ident : Identity} {vault : Nat} {action : KAction}
    {wsig : WebAuthnSignatureData} {p : Identity × Nat}
    (h : execute.handler_webauthn hashFn mb batch cur r ident vault action
      wsig = .ok p) :
    applyAction mb r { ident with nonce := ident.nonce + 1 } vault action =
      .ok p := by
  unfold execute.handler_webauthn at h
  split at h
  · exact absurd h (by simp)
  · split at h
    · exact absurd h (by simp)
    · split at h
      · exact absurd h (by simp)
      · exact h

/-- A matching candidate necessarily parses and carries exactly the expected
message in its extracted message field. -/
theorem matchesCandidate_true_message (ix : Instruction) (pk em sg : Bytes)
    (h : matchesCandidate ix pk em sg = true) :
    ∃ parsed, Secp256r1InstructionData.try_from_slice ix.data = some parsed ∧
      parsed.extract_message ix.data = some em := by
  unfold matchesCandidate at h
  split at h
  · exact absurd h (by simp)
  · split at h
    · exact absurd h (by simp)
    · split at h
      · exact absurd h (by simp)
      next parsed hp =>
        split at h
        next sig pk2 msg hs hpk hmsg =>
          simp only [Bool.and_eq_true, decide_eq_true_eq] at h
          exact ⟨parsed, hp, by rw [hmsg, h.2]⟩
        next => exact absurd h (by simp)

/-- A successful marker scan returns the first match: the marker occurs at
the returned index and at no earlier index. -/
theorem findSublistIdx_some_spec (pat : Bytes) :
    ∀ (l : Bytes) (i : Nat), findSublistIdx pat l = some i →
      pat.isPrefixOf (l.drop i) = true ∧
      ∀ j, j < i → pat.isPrefixOf (l.drop j) = false := by
  intro l
  induction l with
  | nil =>
    intro i h
    unfold findSublistIdx at h
    split at h
    next hp =>
      cases h
      refine ⟨?_, fun j hj => absurd hj (by omega)⟩
      have : pat = [] := List.isEmpty_iff.mp hp
      subst this
      rfl
    · exact absurd h (by simp)
  | cons b rest ih =>
    intro i h
    unfold findSublistIdx at h
    split at h
    next hp =>
      cases h
      exact ⟨by simpa using hp, fun j hj => absurd hj (by omega)⟩
    next hp =>
      split at h
      · exact absurd h (by simp)
      next j' hj' =>
        cases h
        obtain ⟨h1, h2⟩ := ih j' hj'
        refine ⟨by simpa using h1, ?_⟩
        intro j hji
        cases j with
        | zero => simpa using eq_false_of_ne_true hp
        | succ k =>
          have hk : k < j' := by omega
          simpa using h2 k hk

/-! Claim theorems. -/

set_option maxRecDepth 8000 in
/-- C1 counterexample: a WebAuthn Execute call whose signature bundle (one
assertion) is below the identity's threshold (2) is not rejected — it
succeeds and applies the action, refuting the claim for the WebAuthn path. -/
theorem claim_C1_counterexample :
    1 < ident2.threshold ∧
    execute.handler_webauthn hashC 0 batch1 1 none ident2 0
      (.setThreshold 1) w1 =
      .ok ({ ident2 with nonce := 1, threshold := 1 }, 0) :=
  ⟨by decide, by rfl⟩

/-- C1 (amended): on the raw Execute path, a signature bundle that is empty
or smaller than the identity's threshold is rejected with the quorum error
`ThresholdNotMet` and the action is not applied; the WebAuthn path performs
no such quorum check. -/
theorem claim_C1 (mb : Nat) (batch : List Instruction) (cur : Nat)
    (r : Option Bytes) (ident : Identity) (vault : Nat) (action : KAction)
    (sigs : List SignatureData)
    (h : sigs = [] ∨ sigs.length < ident.threshold) :
    execute.handler mb batch cur r ident vault action sigs =
      .error .thresholdNotMet := by
  unfold execute.handler
  by_cases he : sigs.isEmpty
  · rw [if_pos he]
  · rw [if_neg he]
    have hlen : sigs.length < ident.threshold := by
      rcases h with h | h
      · subst h; simp at he
      · exact h
    rw [if_pos hlen]

/-- C1 witness: an empty bundle is rejected with `ThresholdNotMet`. -/
theorem claim_C1_witness :
    execute.handler 0 [] 0 none ident2 0 (.setThreshold 1) [] =
      .error .thresholdNotMet :=
  claim_C1 0 [] 0 none ident2 0 (.setThreshold 1) [] (Or.inl rfl)

/-- C2: at the concrete triple `(pk0, [], sig0)` the builder's payload does
parse under the oracle's parser, but the parsed `signature_ix_index` is 77
(a little-endian u16 read across the builder's legacy single-byte index
field), not the 0xFFFF sentinel, so signature extraction fails: the
round-trip never returns the original triple. -/
theorem claim_C2_bug :
    (Secp256r1InstructionData.try_from_slice built0.data).isSome = true ∧
    Option.map (fun p => p.signature_ix_index)
      (Secp256r1InstructionData.try_from_slice built0.data) = some 77 ∧
    Option.bind (Secp256r1InstructionData.try_from_slice built0.data)
      (fun p => p.extract_signature built0.data) = none :=
  ⟨rfl, rfl, rfl⟩

/-- C3: every failing Execute call (raw or WebAuthn) leaves the committed
state — identity (keys, threshold, nonce) and vault balance — exactly as it
was before the call; the host commits mutations only on success. -/
theorem claim_C3 (hashFn : Bytes → Bytes) (mb : Nat)
    (batch : List Instruction) (cur : Nat) (r : Option Bytes)
    (ident : Identity) (vault : Nat) (action : KAction)
    (sigs : List SignatureData) (wsig : WebAuthnSignatureData) :
    (∀ e, execute.handler mb batch cur r ident vault action sigs = .error e →
      committedState (ident, vault)
        (execute.handler mb batch cur r ident vault action sigs) =
        (ident, vault)) ∧
    (∀ e, execute.handler_webauthn hashFn mb batch cur r ident vault action
        wsig = .error e →
      committedState (ident, vault)
        (execute.handler_webauthn hashFn mb batch cur r ident vault action
          wsig) = (ident, vault)) := by
  constructor
  · intro e he
    rw [he]
    rfl
  · intro e he
    rw [he]
    rfl

/-- C3 witness: a failing raw call (empty bundle) commits no change. -/
theorem claim_C3_witness :
    committedState (ident2, 0)
      (execute.handler 0 [] 0 none ident2 0 (.setThreshold 1) []) =
      (ident2, 0) :=
  (claim_C3 hashC 0 [] 0 none ident2 0 (.setThreshold 1) [] wBad).1
    .thresholdNotMet rfl

/-- C4: every successful Execute call (raw or WebAuthn) produces an identity
whose nonce is exactly the old nonce plus one, and the resulting state is
precisely the action applied to the already-incremented identity (the
increment happens before the action); a failing call leaves the committed
nonce unchanged. -/
theorem claim_C4 (hashFn : Bytes → Bytes) (mb : Nat)
    (batch : List Instruction) (cur : Nat) (r : Option Bytes)
    (ident : Identity) (vault : Nat) (action : KAction)
    (sigs : List SignatureData) (wsig : WebAuthnSignatureData) :
    (∀ p, execute.handler mb batch cur r ident vault action sigs = .ok p →
      p.1.nonce = ident.nonce + 1 ∧
      applyAction mb r { ident with nonce := ident.nonce + 1 } vault action =
        .ok p) ∧
    (∀ p, execute.handler_webauthn hashFn mb batch cur r ident vault action
        wsig = .ok p →
      p.1.nonce = ident.nonce + 1 ∧
      applyAction mb r { ident with nonce := ident.nonce + 1 } vault action =
        .ok p) ∧
    (∀ e, execute.handler mb batch cur r ident vault action sigs = .error e →
      (committedState (ident, vault)
        (execute.handler mb batch cur r ident vault action sigs)).1.nonce =
        ident.nonce) ∧
    (∀ e, execute.handler_webauthn hashFn mb batch cur r ident vault action
        wsig = .error e →
      (committedState (ident, vault)
        (execute.handler_webauthn hashFn mb batch cur r ident vault action
          wsig)).1.nonce = ident.nonce) := by
  refine ⟨?_, ?_, ?_, ?_⟩
  · intro p hp
    have ha := handler_ok_applyAction hp
    exact ⟨(applyAction_preserves _ _ _ _ _ _ ha).1, ha⟩
  · intro p hp
    have ha := handler_webauthn_ok_applyAction hp
    exact ⟨(applyAction_preserves _ _ _ _ _ _ ha).1, ha⟩
  · intro e he
    rw [he]
    rfl
  · intro e he
    rw [he]
    rfl

set_option maxRecDepth 8000 in
/-- C4 witness: a concrete successful raw Execute advances the nonce from 0
to 1. -/
theorem claim_C4_witness :
    execute.handler 0 batch2 1 none ident1 0 (.setThreshold 1) sigs1 =
      .ok ({ ident1 with nonce := 1, threshold := 1 }, 0) ∧
    ({ ident1 with nonce := 1, threshold := 1 } : Identity).nonce =
      ident1.nonce + 1 := by
  have h : execute.handler 0 batch2 1 none ident1 0 (.setThreshold 1) sigs1 =
      .ok ({ ident1 with nonce := 1, threshold := 1 }, 0) := by rfl
  exact ⟨h, ((claim_C4 hashC 0 batch2 1 none ident1 0 (.setThreshold 1) sigs1
    wBad).1 _ h).1⟩

/-- C5: for one action and two distinct nonces below 2^64 the canonical
messages differ, and consequently no verifier instruction whose extracted
message is the stale-nonce message can match when the expected message is
the current-nonce message — the oracle's byte-equality test fails on it. -/
theorem claim_C5 (a : KAction) (pk sg : Bytes) (n m : Nat)
    (hn : n < 2 ^ 64) (hm : m < 2 ^ 64) (hnm : n ≠ m) :
    execute.build_message a n ≠ execute.build_message a m ∧
    ∀ (ix : Instruction) (parsed : Secp256r1InstructionData),
      Secp256r1InstructionData.try_from_slice ix.data = some parsed →
      parsed.extract_message ix.data = some (execute.build_message a n) →
      matchesCandidate ix pk (execute.build_message a m) sg = false := by
  have hne := build_message_nonce_inj a hn hm hnm
  refine ⟨hne, ?_⟩
  intro ix parsed hparse hmsg
  by_contra hmatch
  have hmatch2 : matchesCandidate ix pk (execute.build_message a m) sg =
      true := by
    cases hb : matchesCandidate ix pk (execute.build_message a m) sg
    · exact absurd hb hmatch
    · rfl
  obtain ⟨parsed2, hp2, hm2⟩ :=
    matchesCandidate_true_message ix pk (execute.build_message a m) sg hmatch2
  rw [hparse] at hp2
  injection hp2 with hp2e
  subst hp2e
  rw [hmsg] at hm2
  injection hm2 with hm2e
  exact hne hm2e

/-- C5 witness: the canonical messages of `SetThreshold 1` at nonces 0 and 1
differ. -/
theorem claim_C5_witness :
    execute.build_message (.setThreshold 1) 0 ≠
      execute.build_message (.setThreshold 1) 1 :=
  (claim_C5 (.setThreshold 1) pk0 sig0 0 1 (by norm_num) (by norm_num)
    (by decide)).1

/-- C6: the oracle's scan examines only indices strictly below the current
one; a successful scan returns a matching candidate below the current index
with every higher examined index non-matching (reverse order, first match
wins; non-verifier, short, unparsable or mismatching candidates are skipped
because they fail `matchesCandidate`); an exhausted scan means no earlier
instruction matches and yields the verification error; and overall success
is equivalent to the existence of a matching earlier instruction. -/
theorem claim_C6 (batch : List Instruction) (cur : Nat) (pk msg sg : Bytes)
    (hcur : cur ≤ batch.length) :
    (∀ i, scanLoop batch pk msg sg cur = .ok (some i) →
      i < cur ∧
      (∃ ix, batch.get? i = some ix ∧ matchesCandidate ix pk msg sg = true) ∧
      ∀ j, i < j → j < cur → ∀ ix, batch.get? j = some ix →
        matchesCandidate ix pk msg sg = false) ∧
    (scanLoop batch pk msg sg cur = .ok none →
      (∀ j, j < cur → ∀ ix, batch.get? j = some ix →
        matchesCandidate ix pk msg sg = false) ∧
      verify_secp256r1_signature batch cur pk msg sg =
        .error .signatureVerificationFailed) ∧
    (verify_secp256r1_signature batch cur pk msg sg = .ok () ↔
      ∃ i, i < cur ∧ ∃ ix, batch.get? i = some ix ∧
        matchesCandidate ix pk msg sg = true) := by
  refine ⟨fun i h => scanLoop_ok_some_spec batch pk msg sg cur i h, ?_, ?_⟩
  · intro h
    refine ⟨scanLoop_ok_none_spec batch pk msg sg cur h, ?_⟩
    unfold verify_secp256r1_signature
    rw [h]
  · constructor
    · intro hv
      unfold verify_secp256r1_signature at hv
      cases hs : scanLoop batch pk msg sg cur with
      | error e => rw [hs] at hv; exact absurd hv (by simp)
      | ok o =>
        cases o with
        | none => rw [hs] at hv; exact absurd hv (by simp)
        | some i =>
          obtain ⟨hi, ⟨ix, hg, hmx⟩, _⟩ :=
            scanLoop_ok_some_spec batch pk msg sg cur i hs
          exact ⟨i, hi, ix, hg, hmx⟩
    · rintro ⟨i, hi, ix, hg, hmx⟩
      obtain ⟨o, ho⟩ := scanLoop_no_error batch pk msg sg cur hcur
      cases o with
      | none =>
        have hf := scanLoop_ok_none_spec batch pk msg sg cur ho i hi ix hg
        rw [hmx] at hf
        exact absurd hf (by simp)
      | some k =>
        unfold verify_secp256r1_signature
        rw [ho]

set_option maxRecDepth 8000 in
/-- C6 witness: the scan finds the concrete matching verifier instruction at
index 0 when called from index 1. -/
theorem claim_C6_witness :
    verify_secp256r1_signature batch1 1 pk0 msg32 sig0 = .ok () :=
  (claim_C6 batch1 1 pk0 msg32 sig0 (by decide)).2.2.mpr
    ⟨0, by decide, vix1, rfl, by decide⟩

/-- C7: a passing challenge check means the client-data JSON contained a
challenge value that base64url-decodes to exactly
`hashFn (build_message action nonce)`; and an absent challenge field, a
decode failure, or a mismatched challenge makes the whole WebAuthn call fail
with `InvalidWebAuthnData`, committing no state change. -/
theorem claim_C7 (hashFn : Bytes → Bytes) (mb : Nat)
    (batch : List Instruction) (cur : Nat) (r : Option Bytes)
    (ident : Identity) (vault : Nat) (action : KAction)
    (wsig : WebAuthnSignatureData) :
    (execute.verify_webauthn_challenge wsig.client_data_json
        (hashFn (execute.build_message action ident.nonce)) = .ok () →
      ∃ b64, extractChallengeB64 wsig.client_data_json = some b64 ∧
        execute.base64url_decode b64 =
          some (hashFn (execute.build_message action ident.nonce))) ∧
    ((extractChallengeB64 wsig.client_data_json = none ∨
      (∃ b64, extractChallengeB64 wsig.client_data_json = some b64 ∧
        execute.base64url_decode b64 = none) ∨
      (∃ b64 ch, extractChallengeB64 wsig.client_data_json = some b64 ∧
        execute.base64url_decode b64 = some ch ∧
        ch ≠ hashFn (execute.build_message action ident.nonce))) →
      execute.handler_webauthn hashFn mb batch cur r ident vault action wsig =
        .error .invalidWebAuthnData ∧
      committedState (ident, vault)
        (execute.handler_webauthn hashFn mb batch cur r ident vault action
          wsig) = (ident, vault)) := by
  constructor
  · intro h
    unfold execute.verify_webauthn_challenge at h
    split at h
    · split at h
      · exact absurd h (by simp)
      next b64 hb =>
        split at h
        · exact absurd h (by simp)
        next ch hdec =>
          split at h
          next hcheq => exact ⟨b64, hb, by rw [hdec, hcheq]⟩
          · exact absurd h (by simp)
    · exact absurd h (by simp)
  · intro hd
    have hverr : execute.verify_webauthn_challenge wsig.client_data_json
        (hashFn (execute.build_message action ident.nonce)) =
        .error .invalidWebAuthnData := by
      unfold execute.verify_webauthn_challenge
      by_cases hu : validUtf8 wsig.client_data_json = true
      · rw [if_pos hu]
        rcases hd with h1 | ⟨b64, hb, hdec⟩ | ⟨b64, ch, hb, hdec, hne⟩
        · rw [h1]
        · simp only [hb, hdec]
        · simp only [hb, hdec]
          rw [if_neg hne]
      · rw [if_neg hu]
    have hres : execute.handler_webauthn hashFn mb batch cur r ident vault
        action wsig = .error .invalidWebAuthnData := by
      unfold execute.handler_webauthn
      rw [hverr]
    exact ⟨hres, by rw [hres]; rfl⟩

/-- C7 witness: client data with no challenge field is rejected with
`InvalidWebAuthnData`. -/
theorem claim_C7_witness :
    execute.handler_webauthn hashC 0 [] 0 none ident2 0 (.setThreshold 1)
      wBad = .error .invalidWebAuthnData :=
  ((claim_C7 hashC 0 [] 0 none ident2 0 (.setThreshold 1) wBad).2
    (Or.inl rfl)).1

/-- C8: a raw bundle in which two entries share a `key_index` (the mapped
index list has a repeat) is rejected, whatever the batch contents — i.e.
regardless of whether any individual signature would verify. -/
theorem claim_C8 (mb : Nat) (batch : List Instruction) (cur : Nat)
    (r : Option Bytes) (ident : Identity) (vault : Nat) (action : KAction)
    (sigs : List SignatureData)
    (hdup : ¬ (sigs.map (fun sd => sd.key_index)).Nodup) :
    ∃ e, execute.handler mb batch cur r ident vault action sigs =
      .error e := by
  unfold execute.handler
  by_cases h1 : sigs.isEmpty
  · rw [if_pos h1]
    exact ⟨.thresholdNotMet, rfl⟩
  · rw [if_neg h1]
    by_cases h2 : sigs.length < ident.threshold
    · rw [if_pos h2]
      exact ⟨.thresholdNotMet, rfl⟩
    · rw [if_neg h2]
      have h3 : ¬ noDuplicateKeyIndices []
          (sigs.map fun sd => sd.key_index) = true := by
        intro h
        exact hdup (noDuplicateKeyIndices_true _ [] h).1
      rw [if_neg h3]
      exact ⟨.signatureVerificationFailed, rfl⟩

/-- C8 witness: a bundle with `key_index` 0 twice is rejected. -/
theorem claim_C8_witness :
    ∃ e, execute.handler 0 [] 0 none ident2 0 (.setThreshold 1) sigsDup =
      .error e :=
  claim_C8 0 [] 0 none ident2 0 (.setThreshold 1) sigsDup (by decide)

/-- C9: `createIdentity` establishes the invariant
`1 ≤ threshold ≤ keys.len() ≤ 5`, and `addKey` and both Execute paths (with
`Send` or `SetThreshold`) preserve it. -/
theorem claim_C9 :
    (∀ (ts : Int) (bump vbump : Nat) (pubkey deviceName : Bytes)
      (ident : Identity),
      create.handler ts bump vbump pubkey deviceName = .ok ident →
      IdentityInvariant ident) ∧
    (∀ (ts : Int) (ident : Identity) (pubkey deviceName : Bytes)
      (identB : Identity),
      IdentityInvariant ident →
      add_key.handler ts ident pubkey deviceName = .ok identB →
      IdentityInvariant identB) ∧
    (∀ (mb : Nat) (batch : List Instruction) (cur : Nat) (r : Option Bytes)
      (ident : Identity) (vault : Nat) (action : KAction)
      (sigs : List SignatureData) (p : Identity × Nat),
      IdentityInvariant ident →
      execute.handler mb batch cur r ident vault action sigs = .ok p →
      IdentityInvariant p.1) ∧
    (∀ (hashFn : Bytes → Bytes) (mb : Nat) (batch : List Instruction)
      (cur : Nat) (r : Option Bytes) (ident : Identity) (vault : Nat)
      (action : KAction) (wsig : WebAuthnSignatureData) (p : Identity × Nat),
      IdentityInvariant ident →
      execute.handler_webauthn hashFn mb batch cur r ident vault action wsig =
        .ok p →
      IdentityInvariant p.1) := by
  refine ⟨?_, ?_, ?_, ?_⟩
  · intro ts bump vbump pubkey deviceName ident h
    unfold create.handler at h
    split at h
    · split at h
      · cases h
        simp [IdentityInvariant]
      · exact absurd h (by simp)
    · exact absurd h (by simp)
  · intro ts ident pubkey deviceName identB hInv h
    unfold add_key.handler at h
    split at h
    · exact absurd h (by simp)
    · split at h
      · exact absurd h (by simp)
      · split at h
        · exact absurd h (by simp)
        next h4 =>
          split at h
          · exact absurd h (by simp)
          · split at h
            · exact absurd h (by simp)
            · cases h
              obtain ⟨hthr1, hthr2, hlen⟩ := hInv
              have hlt : ident.keys.length < Identity.MAX_KEYS := by omega
              simp only [IdentityInvariant, List.length_append,
                List.length_cons, List.length_nil]
              unfold Identity.MAX_KEYS at hlt
              refine ⟨by omega, by omega, by omega⟩
  · intro mb batch cur r ident vault action sigs p hInv h
    have ha := handler_ok_applyAction h
    exact applyAction_invariant _ _ _ _ _ _
      (show IdentityInvariant { ident with nonce := ident.nonce + 1 } from
        hInv) ha
  · intro hashFn mb batch cur r ident vault action wsig p hInv h
    have ha := handler_webauthn_ok_applyAction h
    exact applyAction_invariant _ _ _ _ _ _
      (show IdentityInvariant { ident with nonce := ident.nonce + 1 } from
        hInv) ha

/-- C9 witness: the concretely created identity satisfies the invariant. -/
theorem claim_C9_witness : IdentityInvariant ident1 :=
  claim_C9.1 0 0 0 pk0 [107, 48] ident1 rfl

/-- C10: the challenge extraction takes the bytes after the FIRST occurrence
of the quoted challenge marker up to the next double quote; on the concrete
client data `cd1`, whose earlier field value embeds such an occurrence
before the real top-level challenge field (which also matches, at index 24),
the embedded value QQ is the one extracted, decoded (to byte 65) and
compared — not the top-level field value Ug (byte 82). -/
theorem claim_C10 :
    (∀ (cd : Bytes) (i : Nat), findSublistIdx challengeMarker cd = some i →
      challengeMarker.isPrefixOf (cd.drop i) = true ∧
      ∀ j, j < i → challengeMarker.isPrefixOf (cd.drop j) = false) ∧
    extractChallengeB64 cd1 = some [81, 81] ∧
    challengeMarker.isPrefixOf (cd1.drop 24) = true ∧
    execute.verify_webauthn_challenge cd1 [65] = .ok () ∧
    execute.verify_webauthn_challenge cd1 [82] =
      .error .invalidWebAuthnData :=
  ⟨findSublistIdx_some_spec challengeMarker, by rfl, by rfl, by rfl, by rfl⟩

/-- C10 witness: on `cd1` the scan's result index 6 is indeed a marker
occurrence (the one embedded in the earlier field's value). -/
theorem claim_C10_witness :
    challengeMarker.isPrefixOf (cd1.drop 6) = true :=
  (claim_C10.1 cd1 6 rfl).1
